import Mathlib

/-!
Verification of the Financial-Transaction-Extractor pipeline
(`gmail_to_sheets.py`, `api/process.py`, `telegram_notifier.py`).

The Python code is shallowly embedded as executable Lean definitions:

* Python dict entries holding transaction fields become association lists
  `List (String × Value)`, where `Value` covers the string cells read back
  from the sheet and the numeric amounts produced by the classifier
  (numeric amounts are modelled as integers; no claim below depends on
  float-specific formatting or rounding).
* `str(x)` is modelled by `pyStr`, `.lower()` by `String.toLower`.
* The base64+utf-8 decoding step of the content extractor is a parameter
  `dec : String → Option String` (`none` models a decoding exception);
  external backends (Gemini, Sheets append, Telegram) are likewise
  parameters, so every theorem quantifies over their behaviour.
-/

/-- A Python value stored in a transaction-field dict: either a string cell
or a numeric amount. -/
inductive Value where
  | str (s : String)
  | num (n : Int)
deriving DecidableEq, Repr

/-- Python `str(...)` on a stored field value. -/
def pyStr : Value → String
  | .str s => s
  | .num n => toString n

/-- A Python dict with string keys, as used for candidate entries and
existing records. -/
abbrev Entry := List (String × Value)

/-- Python `d.get(field, "")`: lookup with default empty string. -/
def dictGet (e : Entry) (field : String) : Value :=
  (List.lookup field e).getD (.str "")

/-- Python `str.lower()`: character-wise ASCII case folding (the claims do
not involve non-ASCII case behaviour). -/
def pyLower (s : String) : String := String.mk (s.toList.map Char.toLower)

/-- `key_fields` from `is_duplicate` (gmail_to_sheets.py line 404). -/
def key_fields : List String := ["date", "amount", "category", "description"]

/-- `is_duplicate` (gmail_to_sheets.py lines 394-420): scan the existing
entries; an entry matches when every key field agrees after `str(...)` and
`.lower()` on both sides; return `True` on the first full match. The
source's flag-and-break loop is exactly `List.any`/`List.all`. -/
def is_duplicate (new_entry : Entry) (existing_entries : List Entry) : Bool :=
  existing_entries.any (fun existing =>
    key_fields.all (fun field =>
      pyLower (pyStr (dictGet new_entry field))
        == pyLower (pyStr (dictGet existing field))))

/-- Amount sign normalization from `parse_email_with_gemini`
(gmail_to_sheets.py lines 301-312): `amount = abs(float(a))`, then
negate when `transaction_type == 'expense'`, else `abs` again. The
transaction type is `parsed_data.get('transaction_type')`, which may be
absent (`none`). -/
def normalize_amount (a : Int) (ttype : Option String) : Int :=
  let amount := |a|
  if ttype = some "expense" then -amount else |amount|

/-- C1: `is_duplicate` returns true iff some existing record agrees with
the candidate on all four key fields (date, amount, category,
description) after string coercion and lower-casing; on an empty
existing-record list it returns false for every candidate. -/
theorem is_duplicate_iff_key_fields_match (new_entry : Entry)
    (existing_entries : List Entry) :
    (is_duplicate new_entry existing_entries = true ↔
      ∃ existing ∈ existing_entries, ∀ field ∈ key_fields,
        pyLower (pyStr (dictGet new_entry field))
          = pyLower (pyStr (dictGet existing field)))
    ∧ is_duplicate new_entry [] = false := by
  constructor
  · simp [is_duplicate, List.any_eq_true, List.all_eq_true]
  · simp [is_duplicate]

/-- C2: when the raw amount is present, the normalized amount is
`-|a|` for transaction type `"expense"` and `|a|` for every other
transaction type (income, missing, or anything else), regardless of the
sign the classifier returned. -/
theorem normalize_amount_sign (a : Int) (ttype : Option String) :
    normalize_amount a ttype = if ttype = some "expense" then -|a| else |a| := by
  unfold normalize_amount
  split <;> simp [abs_abs]

/-- C3: the sign-normalization step is idempotent — renormalizing an
already-normalized amount under the same transaction type changes
nothing. -/
theorem normalize_amount_idempotent (a : Int) (ttype : Option String) :
    normalize_amount (normalize_amount a ttype) ttype = normalize_amount a ttype := by
  unfold normalize_amount
  split <;> simp [abs_abs]

/-- Character scan modelling `HTMLTextExtractor` (gmail_to_sheets.py lines
61-70): `handle_data` collects the text chunks lying between markup tags,
`get_text` joins them with a space. `inTag` tracks whether the scanner is
inside `<...>`; `cur` is the current text chunk (reversed); `acc` the
collected chunks (reversed). -/
def htmlChunks : List Char → Bool → List Char → List String → List String
  | [], _, cur, acc =>
    (if cur.isEmpty then acc else String.mk cur.reverse :: acc).reverse
  | c :: cs, true, cur, acc =>
    if c = '>' then htmlChunks cs false [] acc else htmlChunks cs true cur acc
  | c :: cs, false, cur, acc =>
    if c = '<' then
      htmlChunks cs true [] (if cur.isEmpty then acc else String.mk cur.reverse :: acc)
    else htmlChunks cs false (c :: cur) acc

/-- `HTMLTextExtractor().feed(html); get_text()`: markup tags removed, text
chunks joined by a single space. -/
def get_text (html : String) : String :=
  " ".intercalate (htmlChunks html.toList false [] [])

/-- A Gmail message payload part: `leaf` is a dict without a `'parts'` key
(inline body data only), `node` is a dict with a `'parts'` key. `mime` is
the optional `'mimeType'` value; `d` is `body.data` (empty string when the
key is absent), still in its encoded form. -/
inductive Payload where
  | leaf (mime : Option String) (d : String)
  | node (mime : Option String) (d : String) (parts : List Payload)

/-- The `for part in message_payload['parts']` loop of `extract_email_body`
(gmail_to_sheets.py lines 157-177, identical in api/process.py lines
119-135). Each part: a `text/plain` part with non-empty data returns its
decoded body; a `text/html` part with non-empty data returns its decoded
body stripped via `get_text`; otherwise a part that itself has `'parts'`
is recursed into and a truthy (non-`None`, non-empty) result returned;
any other part is skipped. `dec` models urlsafe-base64 + utf-8 decoding;
`dec _ = none` models a decoding exception, which propagates (`.error`). -/
def extractFromParts (dec : String → Option String) : List Payload → Except Unit (Option String)
  | [] => .ok none
  | .leaf mime d :: ps =>
    if mime = some "text/plain" then
      if d = "" then extractFromParts dec ps
      else match dec d with
        | none => .error ()
        | some s => .ok (some s)
    else if mime = some "text/html" then
      if d = "" then extractFromParts dec ps
      else match dec d with
        | none => .error ()
        | some s => .ok (some (get_text s))
    else extractFromParts dec ps
  | .node mime d sub :: ps =>
    if mime = some "text/plain" then
      if d = "" then extractFromParts dec ps
      else match dec d with
        | none => .error ()
        | some s => .ok (some s)
    else if mime = some "text/html" then
      if d = "" then extractFromParts dec ps
      else match dec d with
        | none => .error ()
        | some s => .ok (some (get_text s))
    else
      match extractFromParts dec sub with
      | .error u => .error u
      | .ok (some s) => if s = "" then extractFromParts dec ps else .ok (some s)
      | .ok none => extractFromParts dec ps

/-- `extract_email_body` (gmail_to_sheets.py lines 149-190): a payload with
a `'parts'` key is handled by the part loop; otherwise the inline body
data is decoded directly, stripped of markup when the payload itself is
`text/html`; no data anywhere yields `None`. -/
def extract_email_body (dec : String → Option String) : Payload → Except Unit (Option String)
  | .node _ _ parts => extractFromParts dec parts
  | .leaf mime d =>
    if d = "" then .ok none
    else match dec d with
      | none => .error ()
      | some s => if mime = some "text/html" then .ok (some (get_text s)) else .ok (some s)

/-- Every part of the list (recursively) has empty body data. -/
def noBodyList : List Payload → Bool
  | [] => true
  | .leaf _ d :: ps => (d == "") && noBodyList ps
  | .node _ d sub :: ps => (d == "") && (noBodyList sub && noBodyList ps)

/-- The payload tree carries no body data anywhere. -/
def noBody : Payload → Bool
  | .leaf _ d => d == ""
  | .node _ _ parts => noBodyList parts

theorem extractFromParts_noBody (dec : String → Option String) :
    ∀ ps, noBodyList ps = true → extractFromParts dec ps = .ok none
  | [], _ => by simp [extractFromParts]
  | .leaf mime d :: ps, h => by
    simp only [noBodyList, Bool.and_eq_true, beq_iff_eq] at h
    obtain ⟨hd, hps⟩ := h
    have ih := extractFromParts_noBody dec ps hps
    subst hd
    simp [extractFromParts, ih]
  | .node mime d sub :: ps, h => by
    simp only [noBodyList, Bool.and_eq_true, beq_iff_eq] at h
    obtain ⟨hd, hsub, hps⟩ := h
    have ihsub := extractFromParts_noBody dec sub hsub
    have ihps := extractFromParts_noBody dec ps hps
    subst hd
    simp [extractFromParts, ihsub, ihps]

theorem extract_email_body_noBody (dec : String → Option String) (p : Payload)
    (h : noBody p = true) : extract_email_body dec p = .ok none := by
  cases p with
  | leaf mime d =>
    simp only [noBody, beq_iff_eq] at h
    subst h
    simp [extract_email_body]
  | node mime d parts =>
    simp only [noBody] at h
    simpa [extract_email_body] using extractFromParts_noBody dec parts h

/-- A concrete decode table: two encoded bodies and their decoded forms. -/
def dec4 : String → Option String := fun s =>
  if s = "enc-html" then some "<p>hi</p>"
  else if s = "enc-plain" then some "bye"
  else none

/-- A payload whose parts are an HTML part first and a plain-text part
second, both with decodable data. -/
def payload4 : Payload :=
  .node none "" [.leaf (some "text/html") "enc-html", .leaf (some "text/plain") "enc-plain"]

/-- C4 counterexample: the claim says an HTML part's stripped text is
returned only if no plain-text part at that level yields decodable text.
On `payload4` the plain-text part decodes to `"bye"`, yet the extractor
returns the stripped HTML `"hi"` because the HTML part comes first in
document order — the loop has no type priority, only list order. -/
theorem extract_email_body_html_first_counterexample :
    extract_email_body dec4 payload4 = .ok (some "hi")
    ∧ extract_email_body dec4 payload4 ≠ .ok (some "bye")
    ∧ dec4 "enc-plain" = some "bye"
    ∧ ("bye" : String) ≠ ""
    ∧ get_text "<p>hi</p>" = "hi" := by
  refine ⟨?_, ?_, by simp [dec4], by decide, by decide⟩ <;>
    simp [extract_email_body, extractFromParts, dec4, payload4, get_text, htmlChunks] <;>
    decide

/-- C4 (amended): the extractor returns the first part in document order
that yields text — an HTML part placed before any plain-text part is
returned (stripped) regardless of what follows — and on a payload with no
body data anywhere it returns `None` rather than raising. -/
theorem extract_email_body_first_match (dec : String → Option String)
    (mt : Option String) (d hdata : String) (rest : List Payload) (s : String)
    (hne : hdata ≠ "") (hdec : dec hdata = some s)
    (p : Payload) (hnb : noBody p = true) :
    extract_email_body dec (.node mt d (.leaf (some "text/html") hdata :: rest))
      = .ok (some (get_text s))
    ∧ extract_email_body dec p = .ok none := by
  refine ⟨?_, extract_email_body_noBody dec p hnb⟩
  simp [extract_email_body, extractFromParts, hne, hdec]

theorem extract_email_body_first_match_witness :
    extract_email_body dec4 (.node none "" [.leaf (some "text/html") "enc-html"])
      = .ok (some (get_text "<p>hi</p>"))
    ∧ extract_email_body dec4 (.leaf none "") = .ok none :=
  extract_email_body_first_match dec4 none "" "enc-html" [] "<p>hi</p>"
    (by decide) (by simp [dec4]) (.leaf none "") (by simp [noBody])

/-- A concrete decode table for the nested-part and HTML-only scenarios. -/
def dec5 : String → Option String := fun s =>
  if s = "enc5" then some "<p>Beli kopi 20000</p>"
  else if s = "p5" then some "inner text"
  else none

/-- A payload with only an HTML part. -/
def payload5 : Payload := .node none "" [.leaf (some "text/html") "enc5"]

/-- C5: when the outer part carries neither a plain-text nor an HTML media
type but contains sub-parts, the extractor recurses into them and returns
the first non-empty child result; and on a payload with only the HTML part
`<p>Beli kopi 20000</p>` it yields exactly the text `"Beli kopi 20000"`
with the markup tags removed. -/
theorem extract_email_body_recurses_and_strips (dec : String → Option String)
    (mt mt0 : Option String) (d d0 : String) (sub rest : List Payload) (s : String)
    (h1 : mt0 ≠ some "text/plain") (h2 : mt0 ≠ some "text/html")
    (h3 : extractFromParts dec sub = .ok (some s)) (h4 : s ≠ "") :
    extract_email_body dec (.node mt d (.node mt0 d0 sub :: rest)) = .ok (some s)
    ∧ extract_email_body dec5 payload5 = .ok (some "Beli kopi 20000") := by
  constructor
  · simp [extract_email_body, extractFromParts, h1, h2, h3, h4]
  · simp [extract_email_body, extractFromParts, dec5, payload5, get_text, htmlChunks]
    decide

theorem extract_email_body_recurses_and_strips_witness :
    extract_email_body dec5
        (.node none "" [.node none "" [.leaf (some "text/plain") "p5"]])
      = .ok (some "inner text")
    ∧ extract_email_body dec5 payload5 = .ok (some "Beli kopi 20000") :=
  extract_email_body_recurses_and_strips dec5 none none "" ""
    [.leaf (some "text/plain") "p5"] [] "inner text"
    (by decide) (by decide) (by simp [extractFromParts, dec5]) (by decide)

/-- RawClassification: the dict produced by `json.loads` on the classifier
response; any field may be absent/null (`none`). Numeric amounts are
modelled as integers. -/
structure RawParsed where
  amount : Option Int
  category : Option String
  description : Option String
  ttype : Option String
  date : Option String
deriving DecidableEq, Repr

/-- Lines 301-312 of gmail_to_sheets.py applied to the parsed dict: when
`amount` is present, replace it by its sign-normalized value. -/
def normalizeParsed (r : RawParsed) : RawParsed :=
  { r with amount := r.amount.map (fun a => normalize_amount a r.ttype) }

/-- `parse_email_with_gemini` (gmail_to_sheets.py lines 239-318): empty
text returns `None`; the Gemini call, markdown-fence stripping and
`json.loads` are the oracle `cj` (`none` models a backend error or
malformed output — every exception is caught and turned into `None`);
on success the amount sign normalization is applied in place. -/
def parse_email_with_gemini (cj : String → Option RawParsed)
    (email_text : String) : Option RawParsed :=
  if email_text = "" then none
  else match cj email_text with
    | none => none
    | some parsed => some (normalizeParsed parsed)

/-- One candidate Gmail message: its id and payload tree. -/
structure Email where
  id : String
  payload : Payload

/-- The duplicate-check entry built by the orchestrator (gmail_to_sheets.py
lines 480-485) from a successful classification, with the source's
defaults (`today` models `datetime.now().strftime`). -/
def mkCandidateEntry (parsed : RawParsed) (today : String) : Entry :=
  [("date", .str (parsed.date.getD today)),
   ("amount", .num (parsed.amount.getD 0)),
   ("category", .str (parsed.category.getD "Lainnya")),
   ("description", .str (parsed.description.getD ""))]

/-- A sheet row staged for append. -/
abbrev Row := List Value

/-- The header row added first (gmail_to_sheets.py line 460). -/
def header_row : Row :=
  [.str "Date", .str "Amount", .str "Category", .str "Description",
   .str "User ID", .str "Timestamp"]

/-- The data row staged for a unique transaction (lines 497-504). -/
def mkDataRow (entry : Entry) (user_id ts : String) : Row :=
  [dictGet entry "date", dictGet entry "amount", dictGet entry "category",
   dictGet entry "description", .str user_id, .str ts]

/-- The orchestrator's loop state (lines 455-461): the accumulated rows
(header first), the duplicate counter, the entries kept for notification,
and the ids of messages marked processed. -/
structure RunState where
  all_data_rows : List Row
  duplicate_count : Nat
  processed_transactions : List Entry
  handled : List String
deriving Repr

def initState : RunState := ⟨[header_row], 0, [], []⟩

/-- One iteration of the `for email in emails` loop (lines 467-510): extract
the body (a decode exception propagates and aborts the run); skip silently
when the body is `None`/empty or classification fails; otherwise build the
entry and either count it as a duplicate (still marking the message
handled) or stage its row, record the transaction, and mark it handled. -/
def stepEmail (dec : String → Option String) (cj : String → Option RawParsed)
    (existing_data : List Entry) (today user_id ts : String)
    (st : RunState) (em : Email) : Except Unit RunState :=
  match extract_email_body dec em.payload with
  | .error u => .error u
  | .ok none => .ok st
  | .ok (some body) =>
    if body = "" then .ok st
    else match parse_email_with_gemini cj body with
      | none => .ok st
      | some parsed =>
        if is_duplicate (mkCandidateEntry parsed today) existing_data then
          .ok { st with duplicate_count := st.duplicate_count + 1,
                        handled := st.handled ++ [em.id] }
        else
          .ok { st with
            all_data_rows := st.all_data_rows
              ++ [mkDataRow (mkCandidateEntry parsed today) user_id ts],
            processed_transactions := st.processed_transactions
              ++ [mkCandidateEntry parsed today],
            handled := st.handled ++ [em.id] }

/-- The whole candidate loop, threading the state; an extraction exception
aborts the remaining messages (the outer `try` of
`process_gmail_account`). -/
def runEmails (dec : String → Option String) (cj : String → Option RawParsed)
    (existing_data : List Entry) (today user_id ts : String) :
    List Email → RunState → Except Unit RunState
  | [], st => .ok st
  | em :: rest, st =>
    match stepEmail dec cj existing_data today user_id ts st em with
    | .error u => .error u
    | .ok st2 => runEmails dec cj existing_data today user_id ts rest st2

/-- A Telegram notification emitted at the end of a run: one batch summary
or one per-transaction message. -/
inductive Notification where
  | batch (count : Nat)
  | single (t : Entry)
deriving DecidableEq, Repr

/-- `rows_to_append` inside `append_to_sheet` (line 332): drop the header
when requested and more than one row is present. -/
def rows_to_append (data_rows : List Row) (skip_header : Bool) : List Row :=
  if skip_header = true ∧ 1 < data_rows.length then data_rows.drop 1 else data_rows

/-- `append_to_sheet` (lines 320-353): when nothing remains after the
header skip no backend call is made; otherwise the batched append call is
issued, and a backend exception is caught inside this function (only
printed) — it never propagates. `appendOk` models whether the backend
call raises. Returns the rows handed to the backend (`none` when no call
was made) and whether the call succeeded. -/
def append_to_sheet (appendOk : Bool) (data_rows : List Row)
    (skip_header : Bool) : Option (List Row) × Bool :=
  let rows := rows_to_append data_rows skip_header
  if rows.isEmpty then (none, true) else (some rows, appendOk)

/-- The observable outcome of one account run. -/
structure RunResult where
  handled : List String
  duplicates : Nat
  stagedRows : List Row
  transactions : List Entry
  appendAttempt : Option (List Row)
  appendSucceeded : Bool
  notifications : List Notification
deriving Repr

/-- The post-loop tail of `process_gmail_account` (lines 512-537): when any
data row beyond the header was staged, append (skipping the header iff the
sheet already had data) and notify — one batch summary when the staged
count exceeds 5, else one notification per staged transaction; the
notifier runs even when the append call failed, since that failure was
swallowed. Otherwise nothing is appended and nothing is notified. -/
def finalize (existing_data : List Entry) (telegram appendOk : Bool)
    (st : RunState) : RunResult :=
  if 1 < st.all_data_rows.length then
    let ap := append_to_sheet appendOk st.all_data_rows
      (decide (0 < existing_data.length))
    let transactions_count := st.all_data_rows.length - 1
    { handled := st.handled
      duplicates := st.duplicate_count
      stagedRows := st.all_data_rows.drop 1
      transactions := st.processed_transactions
      appendAttempt := ap.1
      appendSucceeded := ap.2
      notifications :=
        if telegram = true ∧ 0 < transactions_count then
          if 5 < transactions_count then [Notification.batch transactions_count]
          else st.processed_transactions.map Notification.single
        else [] }
  else
    { handled := st.handled
      duplicates := st.duplicate_count
      stagedRows := []
      transactions := st.processed_transactions
      appendAttempt := none
      appendSucceeded := true
      notifications := [] }

/-- `process_gmail_account` (lines 422-540) for a fixed snapshot of
existing data and a fetched candidate list: run the loop, then commit and
notify. The Python function itself returns `None` in every case — this
`RunResult` records the run's observable effects, not a return value. -/
def process_gmail_account (dec : String → Option String)
    (cj : String → Option RawParsed) (existing_data : List Entry)
    (emails : List Email) (telegram appendOk : Bool)
    (today user_id ts : String) : Except Unit RunResult :=
  (runEmails dec cj existing_data today user_id ts emails initState).map
    (finalize existing_data telegram appendOk)

/-- A candidate passes when extraction yields a truthy body and
classification succeeds — exactly the condition under which the loop body
does anything with the message. -/
def passes (dec : String → Option String) (cj : String → Option RawParsed)
    (em : Email) : Bool :=
  match extract_email_body dec em.payload with
  | .ok (some s) => (s != "") && (parse_email_with_gemini cj s).isSome
  | _ => false

/-- The fixed six-column schema of `get_existing_data` (line 377). -/
def headers : List String :=
  ["date", "amount", "category", "description", "user_id", "timestamp"]

/-- `row + [''] * (len(headers) - len(row))` (line 383); the Python
negative-multiplier case (a row longer than the schema) adds nothing,
matching truncated subtraction. -/
def paddedRow (row : List String) : List String :=
  row ++ List.replicate (headers.length - row.length) ""

/-- The dict comprehension `{headers[i]: padded_row[i] for i in
range(len(headers))}` (line 384). -/
def mkExistingEntry (row : List String) : Entry :=
  (List.range headers.length).map
    (fun i => (headers.getD i "", Value.str ((paddedRow row).getD i "")))

/-- `get_existing_data` (lines 355-392) applied to the rows the store
returned: empty or header-only data yields `[]`; otherwise every row after
the header becomes a padded entry. -/
def get_existing_data (values : List (List String)) : List Entry :=
  if values.length ≤ 1 then []
  else (values.drop 1).map mkExistingEntry

theorem paddedRow_getD (row : List String) (i : Nat) (_hi : i < headers.length) :
    (paddedRow row).getD i "" = row.getD i "" := by
  rcases Nat.lt_or_ge i row.length with h | h
  · rw [paddedRow, List.getD_eq_getElem?_getD, List.getD_eq_getElem?_getD,
      List.getElem?_append, if_pos h]
  · have h1 : row[i]? = none := List.getElem?_eq_none h
    simp only [paddedRow, List.getD_eq_getElem?_getD, List.getElem?_append_right h,
      List.getElem?_replicate, h1, Option.getD_none]
    split <;> simp

theorem mkExistingEntry_expand (row : List String) :
    mkExistingEntry row =
      [("date", Value.str ((paddedRow row).getD 0 "")),
       ("amount", Value.str ((paddedRow row).getD 1 "")),
       ("category", Value.str ((paddedRow row).getD 2 "")),
       ("description", Value.str ((paddedRow row).getD 3 "")),
       ("user_id", Value.str ((paddedRow row).getD 4 "")),
       ("timestamp", Value.str ((paddedRow row).getD 5 ""))] := rfl

/-- C10: every record returned by `get_existing_data` carries exactly the
six schema keys in order; a data row shorter than the schema is padded
with empty strings (position `i` of the entry holds `row.getD i ""`, which
is `""` beyond the row's own length), the padded row is at least
schema-length so no index in `range(len(headers))` is out of range, and
looking up any of the six keys succeeds. -/
theorem get_existing_data_pads (values : List (List String)) (e : Entry)
    (he : e ∈ get_existing_data values) :
    e.map Prod.fst = headers
    ∧ ∃ row ∈ values.drop 1, e = mkExistingEntry row
        ∧ headers.length ≤ (paddedRow row).length
        ∧ ∀ i < headers.length,
            List.lookup (headers.getD i "") e = some (Value.str (row.getD i "")) := by
  unfold get_existing_data at he
  split at he
  · simp at he
  · obtain ⟨row, hrow, rfl⟩ := List.mem_map.mp he
    refine ⟨rfl, row, hrow, rfl, ?_, ?_⟩
    · have h6 : headers.length = 6 := rfl
      simp only [h6, paddedRow, List.length_append, List.length_replicate]
      omega
    · intro i hi
      have h6 : headers.length = 6 := rfl
      rw [h6] at hi
      interval_cases i <;>
        rw [← paddedRow_getD row _ (by decide)] <;> rfl

theorem get_existing_data_pads_witness :
    (mkExistingEntry ["2024-01-01", "50"]
        ∈ get_existing_data [["h"], ["2024-01-01", "50"]])
    ∧ ((mkExistingEntry ["2024-01-01", "50"]).map Prod.fst = headers
      ∧ ∃ row ∈ [["h"], ["2024-01-01", "50"]].drop 1,
          mkExistingEntry ["2024-01-01", "50"] = mkExistingEntry row
          ∧ headers.length ≤ (paddedRow row).length
          ∧ ∀ i < headers.length,
              List.lookup (headers.getD i "") (mkExistingEntry ["2024-01-01", "50"])
                = some (Value.str (row.getD i ""))) :=
  ⟨by decide, get_existing_data_pads [["h"], ["2024-01-01", "50"]] _ (by decide)⟩

theorem stepEmail_skip (dec : String → Option String)
    (cj : String → Option RawParsed) (existing_data : List Entry)
    (today user_id ts : String) (st : RunState) (em : Email)
    (h : extract_email_body dec em.payload = .ok none
      ∨ extract_email_body dec em.payload = .ok (some "")
      ∨ ∃ s, extract_email_body dec em.payload = .ok (some s) ∧ s ≠ ""
          ∧ parse_email_with_gemini cj s = none) :
    stepEmail dec cj existing_data today user_id ts st em = .ok st := by
  rcases h with h1 | h1 | ⟨s, h1, h2, h3⟩
  · simp [stepEmail, h1]
  · simp [stepEmail, h1]
  · simp [stepEmail, h1, h2, h3]

theorem stepEmail_dup (dec : String → Option String)
    (cj : String → Option RawParsed) (existing_data : List Entry)
    (today user_id ts : String) (st : RunState) (em : Email)
    (s : String) (parsed : RawParsed)
    (h1 : extract_email_body dec em.payload = .ok (some s)) (h2 : s ≠ "")
    (h3 : parse_email_with_gemini cj s = some parsed)
    (h4 : is_duplicate (mkCandidateEntry parsed today) existing_data = true) :
    stepEmail dec cj existing_data today user_id ts st em
      = .ok { st with duplicate_count := st.duplicate_count + 1,
                      handled := st.handled ++ [em.id] } := by
  simp [stepEmail, h1, h2, h3, h4]

theorem stepEmail_stage (dec : String → Option String)
    (cj : String → Option RawParsed) (existing_data : List Entry)
    (today user_id ts : String) (st : RunState) (em : Email)
    (s : String) (parsed : RawParsed)
    (h1 : extract_email_body dec em.payload = .ok (some s)) (h2 : s ≠ "")
    (h3 : parse_email_with_gemini cj s = some parsed)
    (h4 : is_duplicate (mkCandidateEntry parsed today) existing_data = false) :
    stepEmail dec cj existing_data today user_id ts st em
      = .ok { st with
          all_data_rows := st.all_data_rows
            ++ [mkDataRow (mkCandidateEntry parsed today) user_id ts],
          processed_transactions := st.processed_transactions
            ++ [mkCandidateEntry parsed today],
          handled := st.handled ++ [em.id] } := by
  simp [stepEmail, h1, h2, h3, h4]

theorem runEmails_cons_ok (dec : String → Option String)
    (cj : String → Option RawParsed) (existing_data : List Entry)
    (today user_id ts : String) (st st2 : RunState) (em : Email)
    (rest : List Email)
    (h : stepEmail dec cj existing_data today user_id ts st em = .ok st2) :
    runEmails dec cj existing_data today user_id ts (em :: rest) st
      = runEmails dec cj existing_data today user_id ts rest st2 := by
  simp only [runEmails, h]

theorem runEmails_all_duplicates (dec : String → Option String)
    (cj : String → Option RawParsed) (existing_data : List Entry)
    (today user_id ts : String) :
    ∀ (emails : List Email) (st : RunState),
    (∀ em ∈ emails, ∃ s parsed,
        extract_email_body dec em.payload = .ok (some s) ∧ s ≠ ""
        ∧ parse_email_with_gemini cj s = some parsed
        ∧ is_duplicate (mkCandidateEntry parsed today) existing_data = true) →
    runEmails dec cj existing_data today user_id ts emails st
      = .ok { st with duplicate_count := st.duplicate_count + emails.length,
                      handled := st.handled ++ emails.map Email.id }
  | [], st, _ => by simp [runEmails]
  | em :: rest, st, h => by
    obtain ⟨s, parsed, h1, h2, h3, h4⟩ := h em (List.mem_cons_self em rest)
    have ih := runEmails_all_duplicates dec cj existing_data today user_id ts rest
      { st with duplicate_count := st.duplicate_count + 1,
                handled := st.handled ++ [em.id] }
      (fun e he => h e (List.mem_cons_of_mem em he))
    rw [runEmails_cons_ok dec cj existing_data today user_id ts st _ em rest
      (stepEmail_dup dec cj existing_data today user_id ts st em s parsed h1 h2 h3 h4), ih]
    apply congrArg Except.ok
    cases st
    simp [List.length_cons, List.append_assoc]
    omega

/-- C6: when every candidate extracts and classifies successfully and every
resulting entry is a duplicate of the existing-store snapshot, the
orchestrator marks every source message handled, counts every candidate as
a duplicate, stages no row, makes no append call, and emits no
notification. -/
theorem process_all_duplicates (dec : String → Option String)
    (cj : String → Option RawParsed) (existing_data : List Entry)
    (emails : List Email) (telegram appendOk : Bool) (today user_id ts : String)
    (h : ∀ em ∈ emails, ∃ s parsed,
        extract_email_body dec em.payload = .ok (some s) ∧ s ≠ ""
        ∧ parse_email_with_gemini cj s = some parsed
        ∧ is_duplicate (mkCandidateEntry parsed today) existing_data = true) :
    process_gmail_account dec cj existing_data emails telegram appendOk today user_id ts
      = .ok { handled := emails.map Email.id
              duplicates := emails.length
              stagedRows := []
              transactions := []
              appendAttempt := none
              appendSucceeded := true
              notifications := [] } := by
  have hrun := runEmails_all_duplicates dec cj existing_data today user_id ts
    emails initState h
  unfold process_gmail_account
  rw [hrun]
  simp [Except.map, finalize, initState]

/-- Decode table for the all-duplicates scenario. -/
def dec6 : String → Option String := fun s =>
  if s = "enc6" then some "Beli kopi 20000" else none

/-- The raw classification the classifier oracle returns in the
all-duplicates scenario, already sign-normalized. -/
def parsed6 : RawParsed :=
  { amount := some (-20000), category := some "Makanan",
    description := some "Beli kopi", ttype := some "expense",
    date := some "2024-01-01" }

/-- Classifier oracle for the all-duplicates scenario. -/
def cj6 : String → Option RawParsed := fun s =>
  if s = "Beli kopi 20000" then
    some { amount := some 20000, category := some "Makanan",
           description := some "Beli kopi", ttype := some "expense",
           date := some "2024-01-01" }
  else none

/-- An existing sheet record matching `parsed6` up to case. -/
def existing6 : List Entry :=
  [[("date", Value.str "2024-01-01"), ("amount", Value.str "-20000"),
    ("category", Value.str "makanan"), ("description", Value.str "Beli Kopi"),
    ("user_id", Value.str "u"), ("timestamp", Value.str "t")]]

/-- Two candidate messages that both classify to the same existing entry. -/
def emails6 : List Email :=
  [⟨"m1", .leaf (some "text/plain") "enc6"⟩,
   ⟨"m2", .leaf (some "text/plain") "enc6"⟩]

theorem process_all_duplicates_witness :
    process_gmail_account dec6 cj6 existing6 emails6 true true "2024-01-02" "u" "t"
      = .ok { handled := emails6.map Email.id
              duplicates := emails6.length
              stagedRows := []
              transactions := []
              appendAttempt := none
              appendSucceeded := true
              notifications := [] } :=
  process_all_duplicates dec6 cj6 existing6 emails6 true true "2024-01-02" "u" "t"
    (by
      intro em hm
      simp only [emails6, List.mem_cons, List.not_mem_nil, or_false] at hm
      rcases hm with rfl | rfl <;>
        exact ⟨"Beli kopi 20000", parsed6,
          by simp [extract_email_body, dec6], by decide, by decide, by decide⟩)

theorem passes_true_elim (dec : String → Option String)
    (cj : String → Option RawParsed) (em : Email)
    (hp : passes dec cj em = true) :
    ∃ s parsed, extract_email_body dec em.payload = .ok (some s) ∧ s ≠ ""
      ∧ parse_email_with_gemini cj s = some parsed := by
  unfold passes at hp
  split at hp
  · next s heq =>
    rw [Bool.and_eq_true, bne_iff_ne] at hp
    obtain ⟨parsed, hparsed⟩ := Option.isSome_iff_exists.mp hp.2
    exact ⟨s, parsed, heq, hp.1, hparsed⟩
  · exact absurd hp (by simp)

theorem passes_false_elim (dec : String → Option String)
    (cj : String → Option RawParsed) (em : Email) (b : Option String)
    (hb : extract_email_body dec em.payload = .ok b)
    (hp : passes dec cj em = false) :
    b = none ∨ b = some ""
      ∨ ∃ s, b = some s ∧ s ≠ "" ∧ parse_email_with_gemini cj s = none := by
  cases b with
  | none => exact .inl rfl
  | some s =>
    by_cases hs : s = ""
    · exact .inr (.inl (by rw [hs]))
    · refine .inr (.inr ⟨s, rfl, hs, ?_⟩)
      simp only [passes, hb] at hp
      rcases Bool.and_eq_false_iff.mp hp with h | h
      · exact absurd (by simpa using h) hs
      · cases hparse : parse_email_with_gemini cj s with
        | none => rfl
        | some v => rw [hparse] at h; simp at h

theorem stepEmail_ok_of_extract_ok (dec : String → Option String)
    (cj : String → Option RawParsed) (existing_data : List Entry)
    (today user_id ts : String) (st : RunState) (em : Email) (b : Option String)
    (hb : extract_email_body dec em.payload = .ok b) :
    ∃ st2, stepEmail dec cj existing_data today user_id ts st em = .ok st2 := by
  cases b with
  | none => exact ⟨st, by simp [stepEmail, hb]⟩
  | some s =>
    by_cases hs : s = ""
    · subst hs; exact ⟨st, by simp [stepEmail, hb]⟩
    · cases hparse : parse_email_with_gemini cj s with
      | none => exact ⟨st, by simp [stepEmail, hb, hs, hparse]⟩
      | some parsed =>
        cases hdup : is_duplicate (mkCandidateEntry parsed today) existing_data with
        | true =>
          exact ⟨_, stepEmail_dup dec cj existing_data today user_id ts st em
            s parsed hb hs hparse hdup⟩
        | false =>
          exact ⟨_, stepEmail_stage dec cj existing_data today user_id ts st em
            s parsed hb hs hparse hdup⟩

theorem runEmails_filter_passes (dec : String → Option String)
    (cj : String → Option RawParsed) (existing_data : List Entry)
    (today user_id ts : String) :
    ∀ (emails : List Email) (st : RunState),
    (∀ em ∈ emails, ∃ b, extract_email_body dec em.payload = .ok b) →
    runEmails dec cj existing_data today user_id ts emails st
      = runEmails dec cj existing_data today user_id ts
          (emails.filter (passes dec cj)) st
  | [], _, _ => rfl
  | em :: rest, st, h => by
    obtain ⟨b, hb⟩ := h em (List.mem_cons_self em rest)
    have hrest := fun e he => h e (List.mem_cons_of_mem em he)
    cases hp : passes dec cj em with
    | false =>
      have hd := passes_false_elim dec cj em b hb hp
      have hskip : stepEmail dec cj existing_data today user_id ts st em = .ok st := by
        apply stepEmail_skip
        rcases hd with rfl | rfl | ⟨s, rfl, hs, hparse⟩
        · exact .inl hb
        · exact .inr (.inl hb)
        · exact .inr (.inr ⟨s, hb, hs, hparse⟩)
      rw [runEmails_cons_ok dec cj existing_data today user_id ts st st em rest hskip,
        List.filter_cons_of_neg (by simp [hp])]
      exact runEmails_filter_passes dec cj existing_data today user_id ts rest st hrest
    | true =>
      obtain ⟨st2, hstep⟩ := stepEmail_ok_of_extract_ok dec cj existing_data
        today user_id ts st em b hb
      rw [List.filter_cons_of_pos hp,
        runEmails_cons_ok dec cj existing_data today user_id ts st st2 em rest hstep,
        runEmails_cons_ok dec cj existing_data today user_id ts st st2 em
          (rest.filter (passes dec cj)) hstep]
      exact runEmails_filter_passes dec cj existing_data today user_id ts rest st2 hrest

theorem runEmails_pass_counts (dec : String → Option String)
    (cj : String → Option RawParsed) (existing_data : List Entry)
    (today user_id ts : String) :
    ∀ (emails : List Email) (st : RunState),
    (∀ em ∈ emails, passes dec cj em = true) →
    ∃ st2, runEmails dec cj existing_data today user_id ts emails st = .ok st2
      ∧ st2.handled = st.handled ++ emails.map Email.id
      ∧ st2.all_data_rows.length + st2.duplicate_count
          = st.all_data_rows.length + st.duplicate_count + emails.length
      ∧ st.all_data_rows.length ≤ st2.all_data_rows.length
  | [], st, _ => ⟨st, rfl, by simp, by simp, le_refl _⟩
  | em :: rest, st, h => by
    obtain ⟨s, parsed, h1, h2, h3⟩ :=
      passes_true_elim dec cj em (h em (List.mem_cons_self em rest))
    have hrest := fun e he => h e (List.mem_cons_of_mem em he)
    cases hdup : is_duplicate (mkCandidateEntry parsed today) existing_data with
    | true =>
      have hstep := stepEmail_dup dec cj existing_data today user_id ts st em
        s parsed h1 h2 h3 hdup
      obtain ⟨st2, hrun, hh, hc, hle⟩ := runEmails_pass_counts dec cj existing_data
        today user_id ts rest _ hrest
      refine ⟨st2, ?_, ?_, ?_, ?_⟩
      · rw [runEmails_cons_ok dec cj existing_data today user_id ts st _ em rest hstep]
        exact hrun
      · rw [hh]; simp
      · simp only [List.length_cons] at hc ⊢
        omega
      · simpa using hle
    | false =>
      have hstep := stepEmail_stage dec cj existing_data today user_id ts st em
        s parsed h1 h2 h3 hdup
      obtain ⟨st2, hrun, hh, hc, hle⟩ := runEmails_pass_counts dec cj existing_data
        today user_id ts rest _ hrest
      refine ⟨st2, ?_, ?_, ?_, ?_⟩
      · rw [runEmails_cons_ok dec cj existing_data today user_id ts st _ em rest hstep]
        exact hrun
      · rw [hh]; simp
      · simp only [List.length_cons] at hc ⊢
        simp [List.length_append] at hc
        omega
      · simp [List.length_append] at hle
        omega

theorem finalize_handled (existing_data : List Entry) (telegram appendOk : Bool)
    (st : RunState) :
    (finalize existing_data telegram appendOk st).handled = st.handled := by
  unfold finalize; split <;> rfl

theorem finalize_duplicates (existing_data : List Entry) (telegram appendOk : Bool)
    (st : RunState) :
    (finalize existing_data telegram appendOk st).duplicates = st.duplicate_count := by
  unfold finalize; split <;> rfl

theorem finalize_staged_length (existing_data : List Entry)
    (telegram appendOk : Bool) (st : RunState)
    (h : 1 ≤ st.all_data_rows.length) :
    (finalize existing_data telegram appendOk st).stagedRows.length
      = st.all_data_rows.length - 1 := by
  unfold finalize
  split
  · simp
  · next hlen => simp; omega

/-- C7: provided no decoding exception occurs, a candidate whose extraction
yields no text (or an empty body) or whose classification fails is skipped
without being marked handled and without staging a row: the whole run is
identical to the run on the passing candidates alone, the handled ids are
exactly the passing candidates' ids, and the processed and duplicate
counts together account only for passing candidates. -/
theorem process_skips_failed_candidates (dec : String → Option String)
    (cj : String → Option RawParsed) (existing_data : List Entry)
    (emails : List Email) (telegram appendOk : Bool) (today user_id ts : String)
    (h : ∀ em ∈ emails, ∃ b, extract_email_body dec em.payload = .ok b) :
    process_gmail_account dec cj existing_data emails telegram appendOk
        today user_id ts
      = process_gmail_account dec cj existing_data
          (emails.filter (passes dec cj)) telegram appendOk today user_id ts
    ∧ ∃ r, process_gmail_account dec cj existing_data emails telegram appendOk
          today user_id ts = .ok r
        ∧ r.handled = (emails.filter (passes dec cj)).map Email.id
        ∧ r.stagedRows.length + r.duplicates
            = (emails.filter (passes dec cj)).length := by
  have hfilter := runEmails_filter_passes dec cj existing_data today user_id ts
    emails initState h
  have hpass : ∀ em ∈ emails.filter (passes dec cj), passes dec cj em = true :=
    fun em he => (List.mem_filter.mp he).2
  obtain ⟨st2, hrun, hh, hc, hle⟩ := runEmails_pass_counts dec cj existing_data
    today user_id ts (emails.filter (passes dec cj)) initState hpass
  refine ⟨?_, finalize existing_data telegram appendOk st2, ?_, ?_, ?_⟩
  · unfold process_gmail_account; rw [hfilter]
  · unfold process_gmail_account; rw [hfilter, hrun]; rfl
  · rw [finalize_handled, hh]; simp [initState]
  · have hge1 : 1 ≤ st2.all_data_rows.length := by
      simp [initState] at hle; omega
    rw [finalize_staged_length existing_data telegram appendOk st2 hge1,
      finalize_duplicates]
    simp [initState] at hc
    omega

/-- Decode table for the skip scenario. -/
def dec7 : String → Option String := fun s =>
  if s = "e7" then some "text7"
  else if s = "bad7" then some "unparseable" else none

/-- Classifier oracle for the skip scenario: only `"text7"` classifies. -/
def cj7 : String → Option RawParsed := fun s =>
  if s = "text7" then
    some { amount := some 10, category := some "Gaji",
           description := some "gaji bulan", ttype := some "income",
           date := some "2024-01-03" }
  else none

/-- Three candidates: one passing, one with an empty extraction, one whose
classification fails. -/
def emails7 : List Email :=
  [⟨"m1", .leaf (some "text/plain") "e7"⟩,
   ⟨"m2", .leaf none ""⟩,
   ⟨"m3", .leaf (some "text/plain") "bad7"⟩]

theorem process_skips_failed_candidates_witness :
    process_gmail_account dec7 cj7 [] emails7 true true "2024-01-02" "u" "t"
      = process_gmail_account dec7 cj7 []
          (emails7.filter (passes dec7 cj7)) true true "2024-01-02" "u" "t"
    ∧ ∃ r, process_gmail_account dec7 cj7 [] emails7 true true
          "2024-01-02" "u" "t" = .ok r
        ∧ r.handled = (emails7.filter (passes dec7 cj7)).map Email.id
        ∧ r.stagedRows.length + r.duplicates
            = (emails7.filter (passes dec7 cj7)).length :=
  process_skips_failed_candidates dec7 cj7 [] emails7 true true "2024-01-02" "u" "t"
    (by
      intro em hm
      simp only [emails7, List.mem_cons, List.not_mem_nil, or_false] at hm
      rcases hm with rfl | rfl | rfl
      · exact ⟨some "text7", by simp [extract_email_body, dec7]⟩
      · exact ⟨none, by simp [extract_email_body]⟩
      · exact ⟨some "unparseable", by simp [extract_email_body, dec7]⟩)

theorem stepEmail_ok_shape (dec : String → Option String)
    (cj : String → Option RawParsed) (existing_data : List Entry)
    (today user_id ts : String) (st : RunState) (em : Email) (st1 : RunState)
    (hstep : stepEmail dec cj existing_data today user_id ts st em = .ok st1) :
    st1.all_data_rows.length + st.processed_transactions.length
      = st.all_data_rows.length + st1.processed_transactions.length
    ∧ st.all_data_rows.length ≤ st1.all_data_rows.length := by
  unfold stepEmail at hstep
  split at hstep
  · exact Except.noConfusion hstep
  · injection hstep with h; subst h; exact ⟨rfl, le_refl _⟩
  · split at hstep
    · injection hstep with h; subst h; exact ⟨rfl, le_refl _⟩
    · split at hstep
      · injection hstep with h; subst h; exact ⟨rfl, le_refl _⟩
      · split at hstep
        · injection hstep with h; subst h; exact ⟨rfl, le_refl _⟩
        · injection hstep with h; subst h
          constructor
          · simp only [List.length_append, List.length_cons, List.length_nil]
            omega
          · simp only [List.length_append, List.length_cons, List.length_nil]
            omega

theorem runEmails_ok_len (dec : String → Option String)
    (cj : String → Option RawParsed) (existing_data : List Entry)
    (today user_id ts : String) :
    ∀ (emails : List Email) (st st2 : RunState),
    runEmails dec cj existing_data today user_id ts emails st = .ok st2 →
    st2.all_data_rows.length + st.processed_transactions.length
      = st.all_data_rows.length + st2.processed_transactions.length
    ∧ st.all_data_rows.length ≤ st2.all_data_rows.length
  | [], st, st2, h => by
    injection h with h; subst h; exact ⟨rfl, le_refl _⟩
  | em :: rest, st, st2, h => by
    simp only [runEmails] at h
    split at h
    · exact Except.noConfusion h
    · next st1 hstep =>
      obtain ⟨e1, e2⟩ := stepEmail_ok_shape dec cj existing_data today user_id ts
        st em st1 hstep
      obtain ⟨i1, i2⟩ := runEmails_ok_len dec cj existing_data today user_id ts
        rest st1 st2 h
      exact ⟨by omega, by omega⟩

theorem finalize_notifications_batch (existing_data : List Entry) (appendOk : Bool)
    (st : RunState) (hlen : 1 < st.all_data_rows.length)
    (h5 : 5 < st.all_data_rows.length - 1) :
    (finalize existing_data true appendOk st).notifications
      = [Notification.batch (st.all_data_rows.length - 1)] := by
  have h0 : 0 < st.all_data_rows.length - 1 := by omega
  simp [finalize, hlen, h5, h0]

theorem finalize_notifications_single (existing_data : List Entry) (appendOk : Bool)
    (st : RunState) (hlen : 1 < st.all_data_rows.length)
    (h5 : ¬5 < st.all_data_rows.length - 1) :
    (finalize existing_data true appendOk st).notifications
      = st.processed_transactions.map Notification.single := by
  have h0 : 0 < st.all_data_rows.length - 1 := by omega
  simp [finalize, hlen, h5, h0]

theorem finalize_transactions (existing_data : List Entry) (telegram appendOk : Bool)
    (st : RunState) :
    (finalize existing_data telegram appendOk st).transactions
      = st.processed_transactions := by
  unfold finalize; split <;> rfl

/-- C8: for a run with the notifier enabled that staged at least one row,
exactly one batch-summary notification is emitted when the staged-row
count is strictly greater than 5, and otherwise exactly one
per-transaction notification per staged row. -/
theorem process_notification_threshold (dec : String → Option String)
    (cj : String → Option RawParsed) (existing_data : List Entry)
    (emails : List Email) (appendOk : Bool) (today user_id ts : String)
    (r : RunResult)
    (h : process_gmail_account dec cj existing_data emails true appendOk
        today user_id ts = .ok r)
    (hstaged : 1 ≤ r.stagedRows.length) :
    (5 < r.stagedRows.length →
      r.notifications = [Notification.batch r.stagedRows.length])
    ∧ (r.stagedRows.length ≤ 5 →
        r.notifications = r.transactions.map Notification.single
        ∧ r.notifications.length = r.stagedRows.length) := by
  unfold process_gmail_account at h
  cases hrun : runEmails dec cj existing_data today user_id ts emails initState with
  | error u => rw [hrun] at h; exact Except.noConfusion h
  | ok st2 =>
    rw [hrun] at h
    obtain ⟨hsync, hge⟩ := runEmails_ok_len dec cj existing_data today user_id ts
      emails initState st2 hrun
    have hsync2 : st2.all_data_rows.length
        = 1 + st2.processed_transactions.length := by
      simpa [initState] using hsync
    have hge2 : 1 ≤ st2.all_data_rows.length := by
      simpa [initState] using hge
    simp only [Except.map] at h
    injection h with h
    subst h
    have hslen := finalize_staged_length existing_data true appendOk st2 hge2
    by_cases hlen : 1 < st2.all_data_rows.length
    · constructor
      · intro h5
        rw [hslen] at h5 ⊢
        rw [finalize_notifications_batch existing_data appendOk st2 hlen h5]
      · intro h5
        rw [hslen] at h5 ⊢
        rw [finalize_notifications_single existing_data appendOk st2 hlen (by omega),
          finalize_transactions]
        refine ⟨rfl, ?_⟩
        rw [List.length_map]
        omega
    · exfalso
      rw [hslen] at hstaged
      omega

/-- Decoder for the six-unique-transactions scenario: bodies arrive already
decoded. -/
def dec8 : String → Option String := fun s => some s

/-- Classifier oracle for the six-unique-transactions scenario: every body
classifies, with the body itself as description (so all six entries are
distinct) and no other field. -/
def cj8 : String → Option RawParsed := fun s =>
  some { amount := none, category := none, description := some s,
         ttype := none, date := none }

/-- Six candidate messages with distinct bodies. -/
def emails8 : List Email :=
  [⟨"m1", .leaf (some "text/plain") "b1"⟩,
   ⟨"m2", .leaf (some "text/plain") "b2"⟩,
   ⟨"m3", .leaf (some "text/plain") "b3"⟩,
   ⟨"m4", .leaf (some "text/plain") "b4"⟩,
   ⟨"m5", .leaf (some "text/plain") "b5"⟩,
   ⟨"m6", .leaf (some "text/plain") "b6"⟩]

/-- The entry staged for body `s` in the six-unique scenario. -/
def entry8 (s : String) : Entry :=
  [("date", Value.str "2024-01-02"), ("amount", Value.num 0),
   ("category", Value.str "Lainnya"), ("description", Value.str s)]

/-- The sheet row staged for body `s` in the six-unique scenario. -/
def row8 (s : String) : Row :=
  [Value.str "2024-01-02", Value.num 0, Value.str "Lainnya", Value.str s,
   Value.str "u", Value.str "t"]

/-- The full observable outcome of the six-unique run. -/
def r8 : RunResult :=
  { handled := ["m1", "m2", "m3", "m4", "m5", "m6"]
    duplicates := 0
    stagedRows := [row8 "b1", row8 "b2", row8 "b3", row8 "b4", row8 "b5", row8 "b6"]
    transactions :=
      [entry8 "b1", entry8 "b2", entry8 "b3", entry8 "b4", entry8 "b5", entry8 "b6"]
    appendAttempt := some (header_row ::
      [row8 "b1", row8 "b2", row8 "b3", row8 "b4", row8 "b5", row8 "b6"])
    appendSucceeded := true
    notifications := [Notification.batch 6] }

theorem process_notification_threshold_witness :
    (5 < r8.stagedRows.length →
      r8.notifications = [Notification.batch r8.stagedRows.length])
    ∧ (r8.stagedRows.length ≤ 5 →
        r8.notifications = r8.transactions.map Notification.single
        ∧ r8.notifications.length = r8.stagedRows.length) := by
  have hr : process_gmail_account dec8 cj8 [] emails8 true true
      "2024-01-02" "u" "t" = .ok r8 := by
    simp [process_gmail_account, runEmails, stepEmail, extract_email_body,
      parse_email_with_gemini, normalizeParsed, normalize_amount,
      mkCandidateEntry, mkDataRow, dictGet, is_duplicate, key_fields,
      finalize, append_to_sheet, rows_to_append, initState, header_row,
      dec8, cj8, emails8, r8, row8, entry8, Except.map, List.lookup]
  exact process_notification_threshold dec8 cj8 [] emails8 true
    "2024-01-02" "u" "t" r8 hr (by decide)

/-- Candidate message for the commit-failure scenario. -/
def em9 : Email := ⟨"m9", .leaf (some "text/plain") "Beli kopi"⟩

/-- Decoder for the commit-failure scenario. -/
def dec9 : String → Option String := fun s => some s

/-- Classifier oracle for the commit-failure scenario. -/
def cj9 : String → Option RawParsed := fun _ =>
  some { amount := some 20000, category := some "Makanan",
         description := some "kopi", ttype := some "expense",
         date := some "2024-01-01" }

/-- The entry staged in the commit-failure scenario. -/
def entry9 : Entry :=
  [("date", Value.str "2024-01-01"), ("amount", Value.num (-20000)),
   ("category", Value.str "Makanan"), ("description", Value.str "kopi")]

/-- The row staged in the commit-failure scenario. -/
def row9 : Row :=
  [Value.str "2024-01-01", Value.num (-20000), Value.str "Makanan",
   Value.str "kopi", Value.str "u", Value.str "t"]

/-- C9 evidence: a run whose batched append raises a backend error
(`appendOk = false`) completes with `.ok` (no error reaches the caller —
`process_gmail_account` returns `None` in Python, the exception being
caught and printed inside `append_to_sheet`), with the message left marked
handled; the outcome is identical, caller-visible field by field, to the
successful-append run except for the swallowed `appendSucceeded` flag
that models the printed log line. No `CommitFailed` error kind distinct
from "no candidates" or "classification failure" exists anywhere in the
run's outcome. -/
theorem commit_failure_swallowed :
    process_gmail_account dec9 cj9 [] [em9] false false "2024-01-02" "u" "t"
      = .ok { handled := ["m9"], duplicates := 0, stagedRows := [row9],
              transactions := [entry9],
              appendAttempt := some [header_row, row9],
              appendSucceeded := false, notifications := [] }
    ∧ process_gmail_account dec9 cj9 [] [em9] false true "2024-01-02" "u" "t"
      = .ok { handled := ["m9"], duplicates := 0, stagedRows := [row9],
              transactions := [entry9],
              appendAttempt := some [header_row, row9],
              appendSucceeded := true, notifications := [] } := by
  constructor <;>
    simp [process_gmail_account, runEmails, stepEmail, extract_email_body,
      parse_email_with_gemini, normalizeParsed, normalize_amount,
      mkCandidateEntry, mkDataRow, dictGet, is_duplicate, key_fields,
      finalize, append_to_sheet, rows_to_append, initState, header_row,
      dec9, cj9, em9, row9, entry9, Except.map, List.lookup]
